import Mathlib

/-!
Shallow embedding of the expense/receipt engine of the repository
(src/ExpenseContext.js, src/ManualEntryScreen.js, src/ReportScreen.js,
and the receipt-listing screen's filter).  JavaScript numbers are
modelled as exact rationals (ℚ); `Date.now()` timestamps as `Nat`;
ISO date strings as `String`.  Asynchronous persistence (AsyncStorage)
is modelled by an explicit ledger state carrying the in-memory receipt
array, the stored blob and a counter of `setItem` persistence calls;
a mutation returns the next state together with a success flag
(`ok = false` models the thrown/propagated persistence error).
-/

/-- A product line item, as produced by ManualEntryScreen
(`{ name, price, quantity }`). -/
structure Product where
  name : String
  price : ℚ
  quantity : ℚ
  deriving Repr, DecidableEq

/-- A persisted receipt record.  `paymentMethod` is optional
(`paymentMethod || undefined` in the source); `type` is optional: the
scan path never sets it and the listing screen defaults it to
`"Manual"`. -/
structure Receipt where
  id : Nat
  name : String
  amount : ℚ
  category : String
  date : String
  status : String
  paymentMethod : Option String
  products : List Product
  type : Option String
  deriving Repr, DecidableEq

/-- The Ledger Service state (ExpenseContext): the in-memory `receipts`
React state, the AsyncStorage blob under the `receipts` key, and an
instrumentation counter of `AsyncStorage.setItem` calls. -/
structure LedgerState where
  receipts : List Receipt
  stored : List Receipt
  saveCalls : Nat
  deriving Repr, DecidableEq

/-- Result of a mutating operation: the state afterwards and whether the
operation completed without a thrown persistence error. -/
structure MutResult where
  state : LedgerState
  ok : Bool
  deriving Repr, DecidableEq

/-- `saveReceipts` (ExpenseContext.js lines 125-133): writes the blob with
`AsyncStorage.setItem` and only then updates the in-memory state with
`setReceipts`; on a storage failure the error is logged and re-thrown, and
the in-memory state is left untouched.  `setItemOk` says whether the
`setItem` call succeeds; the call itself is counted in both cases. -/
def saveReceipts (setItemOk : Bool) (st : LedgerState) (newReceipts : List Receipt) :
    MutResult :=
  if setItemOk then
    { state := { receipts := newReceipts, stored := newReceipts,
                 saveCalls := st.saveCalls + 1 },
      ok := true }
  else
    { state := { st with saveCalls := st.saveCalls + 1 }, ok := false }

/-- The receipt built by `addReceipt` (ExpenseContext.js lines 158-163):
spread of the caller's input, then `id := Date.now()`,
`date := new Date().toISOString()` and `status := 'Procesado'`
overriding whatever the input held in those fields. -/
def mkNewReceipt (nowMillis : Nat) (nowISO : String) (receipt : Receipt) : Receipt :=
  { receipt with id := nowMillis, date := nowISO, status := "Procesado" }

/-- `addReceipt` (ExpenseContext.js lines 157-166): prepends the newly
built receipt and persists the result. -/
def addReceipt (setItemOk : Bool) (nowMillis : Nat) (nowISO : String)
    (st : LedgerState) (receipt : Receipt) : MutResult :=
  saveReceipts setItemOk st (mkNewReceipt nowMillis nowISO receipt :: st.receipts)

/-- `deleteReceipt` (ExpenseContext.js lines 178-181):
`receipts.filter(r => r.id !== id)`, then persist. -/
def deleteReceipt (setItemOk : Bool) (st : LedgerState) (id : Nat) : MutResult :=
  saveReceipts setItemOk st (st.receipts.filter (fun r => r.id != id))

/-- A shallow-merge patch for `updateReceipt`: `none` means the key is
absent from `updatedData`, `some v` that the spread overrides the field
with `v`. -/
structure ReceiptPatch where
  id : Option Nat := none
  name : Option String := none
  amount : Option ℚ := none
  category : Option String := none
  date : Option String := none
  status : Option String := none
  paymentMethod : Option (Option String) := none
  products : Option (List Product) := none
  type : Option (Option String) := none
  deriving Repr, DecidableEq

/-- The spread `{ ...r, ...updatedData }` of updateReceipt. -/
def applyPatch (r : Receipt) (p : ReceiptPatch) : Receipt :=
  { id := p.id.getD r.id
    name := p.name.getD r.name
    amount := p.amount.getD r.amount
    category := p.category.getD r.category
    date := p.date.getD r.date
    status := p.status.getD r.status
    paymentMethod := p.paymentMethod.getD r.paymentMethod
    products := p.products.getD r.products
    type := p.type.getD r.type }

/-- `updateReceipt` (ExpenseContext.js lines 198-203):
`receipts.map(r => r.id === id ? { ...r, ...updatedData } : r)`, then
persist unconditionally. -/
def updateReceipt (setItemOk : Bool) (st : LedgerState) (id : Nat)
    (updatedData : ReceiptPatch) : MutResult :=
  saveReceipts setItemOk st
    (st.receipts.map (fun r => if r.id == id then applyPatch r updatedData else r))

/-- `clearAllReceipts` (ExpenseContext.js lines 312-314). -/
def clearAllReceipts (setItemOk : Bool) (st : LedgerState) : MutResult :=
  saveReceipts setItemOk st []

/-- `getTotalExpenses` (ExpenseContext.js lines 249-251):
`receipts.reduce((sum, r) => sum + r.amount, 0)`. -/
def getTotalExpenses (receipts : List Receipt) : ℚ :=
  receipts.foldl (fun sum r => sum + r.amount) 0

/-- `getAveragePerReceipt` (ExpenseContext.js lines 264-267):
`receipts.length > 0 ? total / receipts.length : 0`. -/
def getAveragePerReceipt (receipts : List Receipt) : ℚ :=
  if receipts.length > 0 then getTotalExpenses receipts / (receipts.length : ℚ)
  else 0

/-- JavaScript `Math.round` on the (non-negative, in this app) rationals
we feed it: round half up. -/
def jsRound (q : ℚ) : ℚ := ((⌊q + 1/2⌋ : ℤ) : ℚ)

/-- A derived category entry (ExpenseContext.js `categories` state). -/
structure Category where
  name : String
  percentage : ℚ
  amount : ℚ
  color : String
  deriving Repr, DecidableEq

/-- The fixed initial category list (ExpenseContext.js lines 66-72). -/
def initialCategories : List Category :=
  [ { name := "Alimentos", percentage := 0, amount := 0, color := "#6B7FED" },
    { name := "Transporte", percentage := 0, amount := 0, color := "#A855F7" },
    { name := "Equipo de oficina", percentage := 0, amount := 0, color := "#EC4899" },
    { name := "Servicios", percentage := 0, amount := 0, color := "#F59E0B" },
    { name := "Otros", percentage := 0, amount := 0, color := "#10B981" } ]

/-- One step of building the `categoryTotals` object:
`if (!t[key]) t[key] = 0; t[key] += amt;` on a string-keyed object that
keeps insertion order, as both ExpenseContext.calculateCategories and
ReportScreen.calculateReportData do. -/
def addToTotals : List (String × ℚ) → String → ℚ → List (String × ℚ)
  | [], key, amt => [(key, amt)]
  | (k, v) :: rest, key, amt =>
    if k = key then (k, v + amt) :: rest
    else (k, v) :: addToTotals rest key amt

/-- The read `categoryTotals[name] || 0`: the value stored under the key,
0 when the key is absent (a stored 0 is falsy but `|| 0` returns 0 for it
all the same). -/
def lookupTotal : List (String × ℚ) → String → ℚ
  | [], _ => 0
  | (k, v) :: rest, name => if k = name then v else lookupTotal rest name

/-- `calculateCategories` (ExpenseContext.js lines 214-239), as a function
of the receipt collection: total, per-category totals, then the fixed
category list updated with each category's amount and rounded
percentage. -/
def calculateCategories (receipts : List Receipt) : List Category :=
  let total := receipts.foldl (fun sum r => sum + r.amount) 0
  let categoryTotals :=
    receipts.foldl (fun acc r => addToTotals acc r.category r.amount) []
  initialCategories.map (fun cat =>
    { cat with
      amount := lookupTotal categoryTotals cat.name
      percentage :=
        if total > 0 then jsRound (lookupTotal categoryTotals cat.name / total * 100)
        else 0 })

/-- `parseFloat(product.price) || 0` on an already numeric price: the
identity on rationals (the only falsy numbers are 0, which `|| 0` keeps
at 0, and NaN, which has no rational counterpart). -/
def priceVal (price : ℚ) : ℚ := price

/-- `parseFloat(product.quantity) || 1` on an already numeric quantity:
a zero quantity is falsy and becomes 1. -/
def quantityVal (quantity : ℚ) : ℚ := if quantity = 0 then 1 else quantity

/-- `calculateTotal` (ManualEntryScreen.js lines 127-133):
`products.reduce((sum, p) => sum + (parseFloat(p.price) || 0) *
(parseFloat(p.quantity) || 1), 0)`. -/
def calculateTotal (products : List Product) : ℚ :=
  products.foldl (fun sum p => sum + priceVal p.price * quantityVal p.quantity) 0

/-- The `receiptData` object built by ManualEntryScreen.handleSave
(lines 231-244) once validation has passed: the amount is the computed
`calculateTotal()` over all products, the `products` field keeps only
line items with a non-empty trimmed name, `paymentMethod || undefined`
drops an empty selection, and the type tag is `'Manual'`.  `isoDate`
stands for `receiptDate.toISOString()`; the source object carries no
`id` (addReceipt assigns one), modelled here by a placeholder 0. -/
def buildManualReceiptData (merchant : String) (isoDate : String)
    (selectedCategory : String) (paymentMethod : String)
    (products : List Product) : Receipt :=
  { id := 0
    name := merchant.trim
    amount := calculateTotal products
    category := selectedCategory
    date := isoDate
    status := "Procesado"
    paymentMethod := if paymentMethod = "" then none else some paymentMethod
    products :=
      (products.filter (fun p => p.name.trim ≠ "")).map (fun p =>
        { name := p.name.trim, price := priceVal p.price,
          quantity := quantityVal p.quantity })
    type := some "Manual" }

/-- One row of the report's `expensesByCategory`. -/
structure ReportRow where
  category : String
  amount : ℚ
  percentage : ℚ
  deriving Repr, DecidableEq

/-- The object returned by ReportScreen.calculateReportData. -/
structure ReportData where
  totalSpent : ℚ
  entries : Nat
  deposits : ℚ
  average : ℚ
  expensesByCategory : List ReportRow
  deriving Repr, DecidableEq

/-- `receipt.category || 'Otros'` (ReportScreen.js line 58): the empty
string is the falsy string. -/
def categoryOrOtros (category : String) : String :=
  if category = "" then "Otros" else category

/-- Insertion step of `.sort((a, b) => b.amount - a.amount)`: place `x`
before the first element it need not follow.  JavaScript's sort is
stable, which this insertion sort reproduces; C6 only needs the
descending order, with ties in any order. -/
def insertRowDesc (x : ReportRow) : List ReportRow → List ReportRow
  | [] => [x]
  | y :: ys => if x.amount ≥ y.amount then x :: y :: ys else y :: insertRowDesc x ys

/-- `.sort((a, b) => b.amount - a.amount)` as a stable insertion sort. -/
def sortRowsDesc : List ReportRow → List ReportRow
  | [] => []
  | x :: xs => insertRowDesc x (sortRowsDesc xs)

/-- `calculateReportData` (ReportScreen.js lines 44-82), as a function of
the filtered receipt set.  `deposits` filters on
`r.amount > 0 && (r.type === 'Deposit' || false)`; `expensesByCategory`
groups by `receipt.category || 'Otros'`, maps to rows with the rounded
percentage, and sorts descending by amount. -/
def calculateReportData (filteredReceipts : List Receipt) : ReportData :=
  let totalSpent := filteredReceipts.foldl (fun sum r => sum + r.amount) 0
  let entries := filteredReceipts.length
  let deposits :=
    (filteredReceipts.filter
        (fun r => decide (r.amount > 0) && (r.type == some "Deposit" || false))).foldl
      (fun sum r => sum + r.amount) 0
  let average := if entries > 0 then totalSpent / (entries : ℚ) else 0
  let categoryTotals :=
    filteredReceipts.foldl
      (fun acc r => addToTotals acc (categoryOrOtros r.category) r.amount) []
  let expensesByCategory :=
    sortRowsDesc (categoryTotals.map (fun p =>
      { category := p.1, amount := p.2,
        percentage := if totalSpent > 0 then jsRound (p.2 / totalSpent * 100) else 0 }))
  { totalSpent := totalSpent, entries := entries, deposits := deposits,
    average := average, expensesByCategory := expensesByCategory }

/-- JavaScript `haystack.includes(needle)` on strings: the empty needle
is always found; otherwise `splitOn` yields more than one piece exactly
when the needle occurs. -/
def jsIncludes (haystack needle : String) : Bool :=
  needle.isEmpty || (haystack.splitOn needle).length > 1

/-- `receipt.type || 'Manual'` (AllReceiptsScreen): absent or empty type
defaults to `'Manual'`. -/
def typeOrManual : Option String → String
  | some t => if t = "" then "Manual" else t
  | none => "Manual"

/-- The filter criteria of the AllReceiptsScreen listing
(src/unnamed/part_000 lines 69-109).  The text inputs `minAmount` and
`maxAmount` are modelled after parsing: `none` when the input string is
empty (falsy) or does not parse to a number (`amount < NaN` filters
nothing); `startDate`/`endDate` are the raw strings, `""` meaning
absent. -/
structure FilterCriteria where
  searchQuery : String := ""
  selectedCategory : String := "Todas"
  selectedType : String := "Todas"
  startDate : String := ""
  endDate : String := ""
  minAmount : Option ℚ := none
  maxAmount : Option ℚ := none
  deriving Repr, DecidableEq

/-- The predicate of `receipts.filter(receipt => ...)` in
src/unnamed/part_000 lines 69-109, one early `return false` per
criterion, in source order.  `dateVal` stands for `new Date(s)`'s
timeline value and `endOfDay` for the `end.setHours(23, 59, 59)`
adjustment; both are parameters of the embedding. -/
def receiptPasses (dateVal : String → ℚ) (endOfDay : ℚ → ℚ)
    (c : FilterCriteria) (r : Receipt) : Bool :=
  if c.searchQuery ≠ "" && !jsIncludes r.name.toLower c.searchQuery.toLower then false
  else if c.selectedCategory ≠ "Todas" && r.category ≠ c.selectedCategory then false
  else if c.selectedType ≠ "Todas" && typeOrManual r.type ≠ c.selectedType then false
  else if c.startDate ≠ "" && decide (dateVal r.date < dateVal c.startDate) then false
  else if c.endDate ≠ "" && decide (dateVal r.date > endOfDay (dateVal c.endDate)) then
    false
  else if (match c.minAmount with
           | some m => decide (r.amount < m)
           | none => false) then false
  else if (match c.maxAmount with
           | some m => decide (r.amount > m)
           | none => false) then false
  else true

/-- `filteredReceipts` of the listing screen, as a function of the
receipts and the criteria. -/
def filteredReceipts (dateVal : String → ℚ) (endOfDay : ℚ → ℚ)
    (c : FilterCriteria) (receipts : List Receipt) : List Receipt :=
  receipts.filter (receiptPasses dateVal endOfDay c)

/-- The names of the five fixed categories, in declaration order. -/
def fixedCategoryNames : List String := initialCategories.map (fun cat => cat.name)

/-- The summed amount of the receipts whose key (under `f`) is `n`. -/
def keyAmount (f : Receipt → String) (rs : List Receipt) (n : String) : ℚ :=
  ((rs.filter (fun r => f r = n)).map (fun r => r.amount)).sum

lemma foldl_add_amount (rs : List Receipt) (a : ℚ) :
    rs.foldl (fun sum r => sum + r.amount) a = a + (rs.map (fun r => r.amount)).sum := by
  induction rs generalizing a with
  | nil => simp
  | cons r rs ih => simp [List.foldl_cons, ih, add_assoc]

lemma getTotalExpenses_eq_sum (rs : List Receipt) :
    getTotalExpenses rs = (rs.map (fun r => r.amount)).sum := by
  simp [getTotalExpenses, foldl_add_amount]

lemma lookupTotal_nil (n : String) : lookupTotal [] n = 0 := rfl

lemma lookupTotal_addToTotals (acc : List (String × ℚ)) (key : String) (amt : ℚ)
    (n : String) :
    lookupTotal (addToTotals acc key amt) n =
      lookupTotal acc n + (if key = n then amt else 0) := by
  induction acc with
  | nil =>
    by_cases h : key = n <;> simp [addToTotals, lookupTotal, h]
  | cons p rest ih =>
    obtain ⟨k, v⟩ := p
    by_cases hk : k = key
    · subst hk
      by_cases hn : k = n
      · subst hn; simp [addToTotals, lookupTotal]
      · simp [addToTotals, lookupTotal, hn]
    · by_cases hn : k = n
      · subst hn
        have hkn : ¬ key = k := fun h => hk h.symm
        simp [addToTotals, lookupTotal, hk, hkn]
      · simp [addToTotals, lookupTotal, hk, hn, ih]

lemma keyAmount_nil (f : Receipt → String) (n : String) : keyAmount f [] n = 0 := rfl

lemma keyAmount_cons (f : Receipt → String) (r : Receipt) (rs : List Receipt)
    (n : String) :
    keyAmount f (r :: rs) n = (if f r = n then r.amount else 0) + keyAmount f rs n := by
  by_cases h : f r = n <;> simp [keyAmount, List.filter_cons, h]

lemma lookupTotal_foldl (f : Receipt → String) (rs : List Receipt)
    (acc : List (String × ℚ)) (n : String) :
    lookupTotal (rs.foldl (fun acc r => addToTotals acc (f r) r.amount) acc) n =
      lookupTotal acc n + keyAmount f rs n := by
  induction rs generalizing acc with
  | nil => simp [keyAmount_nil]
  | cons r rs ih =>
    simp only [List.foldl_cons]
    rw [ih, lookupTotal_addToTotals, keyAmount_cons]
    ring

lemma lookupTotal_buildTotals (f : Receipt → String) (rs : List Receipt) (n : String) :
    lookupTotal (rs.foldl (fun acc r => addToTotals acc (f r) r.amount) []) n =
      keyAmount f rs n := by
  rw [lookupTotal_foldl, lookupTotal_nil, zero_add]

lemma sum_map_add_q {α : Type} (l : List α) (f g : α → ℚ) :
    (l.map (fun x => f x + g x)).sum = (l.map f).sum + (l.map g).sum := by
  induction l with
  | nil => simp
  | cons x l ih => simp [ih]; ring

lemma sum_ite_of_mem (names : List String) (k : String) (a : ℚ)
    (hnodup : names.Nodup) (hmem : k ∈ names) :
    (names.map (fun n => if k = n then a else 0)).sum = a := by
  induction names with
  | nil => cases hmem
  | cons n names ih =>
    rcases List.mem_cons.mp hmem with h | h
    · subst h
      have hnot : k ∉ names := (List.nodup_cons.mp hnodup).1
      have : (names.map (fun n => if k = n then a else 0)).sum = 0 := by
        have : ∀ n ∈ names, (if k = n then a else 0) = 0 := by
          intro n hn
          have : k ≠ n := fun h => hnot (h ▸ hn)
          simp [this]
        calc (names.map (fun n => if k = n then a else 0)).sum
            = (names.map (fun _ => (0 : ℚ))).sum := by
              rw [List.map_congr_left this]
          _ = 0 := by simp
      simp [this]
    · have hne : k ≠ n := by
        rintro rfl
        exact (List.nodup_cons.mp hnodup).1 h
      simp only [List.map_cons, List.sum_cons, if_neg hne, zero_add]
      exact ih (List.nodup_cons.mp hnodup).2 h

lemma partition_sum (f : Receipt → String) (names : List String) (rs : List Receipt)
    (hnodup : names.Nodup) (hall : ∀ r ∈ rs, f r ∈ names) :
    (names.map (keyAmount f rs)).sum = (rs.map (fun r => r.amount)).sum := by
  induction rs with
  | nil =>
    have : ∀ n ∈ names, keyAmount f [] n = 0 := fun n _ => keyAmount_nil f n
    calc (names.map (keyAmount f [])).sum
        = (names.map (fun _ => (0 : ℚ))).sum := by rw [List.map_congr_left this]
      _ = 0 := by simp
      _ = (([] : List Receipt).map (fun r => r.amount)).sum := by simp
  | cons r rs ih =>
    have hstep : ∀ n ∈ names,
        keyAmount f (r :: rs) n = (if f r = n then r.amount else 0) + keyAmount f rs n :=
      fun n _ => keyAmount_cons f r rs n
    calc (names.map (keyAmount f (r :: rs))).sum
        = (names.map (fun n => (if f r = n then r.amount else 0) + keyAmount f rs n)).sum := by
          rw [List.map_congr_left hstep]
      _ = (names.map (fun n => if f r = n then r.amount else 0)).sum
            + (names.map (keyAmount f rs)).sum := sum_map_add_q names _ _
      _ = r.amount + (rs.map (fun r => r.amount)).sum := by
          rw [sum_ite_of_mem names (f r) r.amount hnodup (hall r (List.mem_cons_self r rs)),
            ih (fun x hx => hall x (List.mem_cons_of_mem r hx))]
      _ = ((r :: rs).map (fun r => r.amount)).sum := by simp

lemma keys_addToTotals (acc : List (String × ℚ)) (key : String) (amt : ℚ) :
    (addToTotals acc key amt).map Prod.fst =
      if key ∈ acc.map Prod.fst then acc.map Prod.fst
      else acc.map Prod.fst ++ [key] := by
  induction acc with
  | nil => simp [addToTotals]
  | cons p rest ih =>
    obtain ⟨k, v⟩ := p
    by_cases hk : k = key
    · subst hk; simp [addToTotals]
    · have hne : key ≠ k := fun h => hk h.symm
      simp only [addToTotals, if_neg hk, List.map_cons, ih]
      by_cases hm : key ∈ rest.map Prod.fst <;>
        simp [hm, List.mem_cons, hne]

lemma mem_keys_addToTotals (acc : List (String × ℚ)) (key : String) (amt : ℚ)
    (n : String) :
    n ∈ (addToTotals acc key amt).map Prod.fst ↔
      n ∈ acc.map Prod.fst ∨ n = key := by
  rw [keys_addToTotals]
  by_cases hm : key ∈ acc.map Prod.fst
  · simp only [if_pos hm]
    constructor
    · exact Or.inl
    · rintro (h | rfl)
      · exact h
      · exact hm
  · simp [if_neg hm, List.mem_append]

lemma mem_keys_foldl (f : Receipt → String) (rs : List Receipt)
    (acc : List (String × ℚ)) (n : String) :
    n ∈ (rs.foldl (fun acc r => addToTotals acc (f r) r.amount) acc).map Prod.fst ↔
      n ∈ acc.map Prod.fst ∨ ∃ r ∈ rs, f r = n := by
  induction rs generalizing acc with
  | nil => simp
  | cons r rs ih =>
    simp only [List.foldl_cons]
    rw [ih, mem_keys_addToTotals]
    constructor
    · rintro ((h | h) | ⟨x, hx, hfx⟩)
      · exact Or.inl h
      · exact Or.inr ⟨r, List.mem_cons_self r rs, h.symm⟩
      · exact Or.inr ⟨x, List.mem_cons_of_mem r hx, hfx⟩
    · rintro (h | ⟨x, hx, hfx⟩)
      · exact Or.inl (Or.inl h)
      · rcases List.mem_cons.mp hx with rfl | hx
        · exact Or.inl (Or.inr hfx.symm)
        · exact Or.inr ⟨x, hx, hfx⟩

lemma nodup_keys_addToTotals (acc : List (String × ℚ)) (key : String) (amt : ℚ)
    (h : (acc.map Prod.fst).Nodup) :
    ((addToTotals acc key amt).map Prod.fst).Nodup := by
  rw [keys_addToTotals]
  by_cases hm : key ∈ acc.map Prod.fst
  · simpa [if_pos hm] using h
  · rw [if_neg hm]
    refine List.Nodup.append h (List.nodup_singleton key) ?_
    intro a ha hb
    rcases List.mem_singleton.mp hb with rfl
    exact hm ha

lemma nodup_keys_foldl (f : Receipt → String) (rs : List Receipt)
    (acc : List (String × ℚ)) (h : (acc.map Prod.fst).Nodup) :
    ((rs.foldl (fun acc r => addToTotals acc (f r) r.amount) acc).map Prod.fst).Nodup := by
  induction rs generalizing acc with
  | nil => exact h
  | cons r rs ih =>
    simp only [List.foldl_cons]
    exact ih _ (nodup_keys_addToTotals acc (f r) r.amount h)

lemma insertRowDesc_perm (x : ReportRow) (l : List ReportRow) :
    List.Perm (insertRowDesc x l) (x :: l) := by
  induction l with
  | nil => exact List.Perm.refl _
  | cons y ys ih =>
    by_cases h : x.amount ≥ y.amount
    · simp [insertRowDesc, h]
    · simp only [insertRowDesc, if_neg h]
      exact (ih.cons y).trans (List.Perm.swap x y ys)

lemma sortRowsDesc_perm (l : List ReportRow) : List.Perm (sortRowsDesc l) l := by
  induction l with
  | nil => exact List.Perm.refl _
  | cons x xs ih =>
    exact (insertRowDesc_perm x (sortRowsDesc xs)).trans (ih.cons x)

lemma insertRowDesc_pairwise (x : ReportRow) (l : List ReportRow)
    (h : l.Pairwise (fun a b => b.amount ≤ a.amount)) :
    (insertRowDesc x l).Pairwise (fun a b => b.amount ≤ a.amount) := by
  induction l with
  | nil => simp [insertRowDesc]
  | cons y ys ih =>
    rcases List.pairwise_cons.mp h with ⟨hy, hys⟩
    by_cases hxy : x.amount ≥ y.amount
    · simp only [insertRowDesc, if_pos hxy]
      refine List.pairwise_cons.mpr ⟨?_, h⟩
      intro z hz
      rcases List.mem_cons.mp hz with rfl | hz
      · exact hxy
      · exact le_trans (hy z hz) hxy
    · simp only [insertRowDesc, if_neg hxy]
      refine List.pairwise_cons.mpr ⟨?_, ih hys⟩
      intro z hz
      have hz' : z = x ∨ z ∈ ys := by
        simpa using (insertRowDesc_perm x ys).mem_iff.mp hz
      rcases hz' with rfl | hz'
      · exact le_of_not_le hxy
      · exact hy z hz'

lemma sortRowsDesc_pairwise (l : List ReportRow) :
    (sortRowsDesc l).Pairwise (fun a b => b.amount ≤ a.amount) := by
  induction l with
  | nil => simp [sortRowsDesc]
  | cons x xs ih => exact insertRowDesc_pairwise x _ ih

/-- Two sample receipts (the scenario of spec §8.7). -/
def sampleMarket : Receipt :=
  { id := 1, name := "Market", amount := 100, category := "Alimentos",
    date := "2024-01-01T00:00:00.000Z", status := "Procesado",
    paymentMethod := none, products := [], type := some "Manual" }

def sampleTaxi : Receipt :=
  { id := 2, name := "Taxi", amount := 50, category := "Transporte",
    date := "2024-01-02T00:00:00.000Z", status := "Procesado",
    paymentMethod := none, products := [], type := none }

def sampleLedger : LedgerState :=
  { receipts := [sampleMarket, sampleTaxi],
    stored := [sampleMarket, sampleTaxi], saveCalls := 0 }

def emptyLedger : LedgerState := { receipts := [], stored := [], saveCalls := 0 }

/-- **C3**: after the category recompute, the sum of `amount` over the five
fixed category entries equals exactly the sum of `amount` over all receipts
of the collection, whenever every receipt carries one of the five fixed
category names. -/
theorem calculateCategories_amount_sum_eq_total (rs : List Receipt)
    (hall : ∀ r ∈ rs, r.category ∈ fixedCategoryNames) :
    ((calculateCategories rs).map (fun cat => cat.amount)).sum = getTotalExpenses rs := by
  have hnodup : fixedCategoryNames.Nodup := by decide
  have h1 : (calculateCategories rs).map (fun cat => cat.amount) =
      initialCategories.map (fun cat => keyAmount (fun r => r.category) rs cat.name) := by
    simp only [calculateCategories, List.map_map]
    apply List.map_congr_left
    intro cat _
    simp [Function.comp, lookupTotal_buildTotals]
  have h2 : initialCategories.map
        (fun cat => keyAmount (fun r => r.category) rs cat.name) =
      fixedCategoryNames.map (keyAmount (fun r => r.category) rs) := by
    simp [fixedCategoryNames, List.map_map, Function.comp]
  rw [h1, h2, partition_sum _ _ _ hnodup hall, getTotalExpenses_eq_sum]

/-- Witness for C3 at the two-receipt sample collection. -/
theorem calculateCategories_amount_sum_eq_total_witness :
    (∀ r ∈ [sampleMarket, sampleTaxi], r.category ∈ fixedCategoryNames)
    ∧ ((calculateCategories [sampleMarket, sampleTaxi]).map (fun cat => cat.amount)).sum =
        getTotalExpenses [sampleMarket, sampleTaxi] :=
  ⟨by decide, calculateCategories_amount_sum_eq_total [sampleMarket, sampleTaxi] (by decide)⟩

lemma expensesByCategory_def (rs : List Receipt) :
    (calculateReportData rs).expensesByCategory =
      sortRowsDesc
        ((rs.foldl (fun acc r => addToTotals acc (categoryOrOtros r.category) r.amount)
            []).map (fun p =>
          { category := p.1, amount := p.2,
            percentage :=
              if rs.foldl (fun sum r => sum + r.amount) 0 > 0 then
                jsRound (p.2 / rs.foldl (fun sum r => sum + r.amount) 0 * 100)
              else 0 })) := rfl

lemma exists_report_row_iff (rs : List Receipt) (c : String) :
    (∃ row ∈ (calculateReportData rs).expensesByCategory, row.category = c) ↔
      ∃ r ∈ rs, categoryOrOtros r.category = c := by
  rw [expensesByCategory_def]
  have hkeys := mem_keys_foldl (fun r => categoryOrOtros r.category) rs [] c
  simp only [List.map_nil, List.not_mem_nil, false_or] at hkeys
  rw [← hkeys]
  constructor
  · rintro ⟨row, hrow, rfl⟩
    have hrow' := (sortRowsDesc_perm _).mem_iff.mp hrow
    rcases List.mem_map.mp hrow' with ⟨p, hp, rfl⟩
    exact List.mem_map.mpr ⟨p, hp, rfl⟩
  · intro hc
    rcases List.mem_map.mp hc with ⟨p, hp, rfl⟩
    refine ⟨_, (sortRowsDesc_perm _).mem_iff.mpr (List.mem_map.mpr ⟨p, hp, rfl⟩), rfl⟩

/-- **C6**: for every filtered receipt set whose receipts carry a (truthy)
category, the report's `expensesByCategory` is sorted in descending order
of amount, contains exactly one entry per category name appearing in the
set, and no entry for a category with zero filtered receipts. -/
theorem report_expensesByCategory_sorted_complete (rs : List Receipt)
    (hcat : ∀ r ∈ rs, r.category ≠ "") :
    (calculateReportData rs).expensesByCategory.Pairwise
        (fun a b => b.amount ≤ a.amount)
    ∧ (∀ c : String,
        (∃ row ∈ (calculateReportData rs).expensesByCategory, row.category = c) ↔
          ∃ r ∈ rs, r.category = c)
    ∧ ((calculateReportData rs).expensesByCategory.map
          (fun row => row.category)).Nodup := by
  refine ⟨?_, ?_, ?_⟩
  · rw [expensesByCategory_def]
    exact sortRowsDesc_pairwise _
  · intro c
    rw [exists_report_row_iff]
    constructor
    · rintro ⟨r, hr, hrc⟩
      refine ⟨r, hr, ?_⟩
      rwa [categoryOrOtros, if_neg (hcat r hr)] at hrc
    · rintro ⟨r, hr, hrc⟩
      refine ⟨r, hr, ?_⟩
      rwa [categoryOrOtros, if_neg (hcat r hr)]
  · rw [expensesByCategory_def]
    have hperm := (sortRowsDesc_perm
      ((rs.foldl (fun acc r => addToTotals acc (categoryOrOtros r.category) r.amount)
          []).map (fun p =>
        ({ category := p.1, amount := p.2,
           percentage :=
             if rs.foldl (fun sum r => sum + r.amount) 0 > 0 then
               jsRound (p.2 / rs.foldl (fun sum r => sum + r.amount) 0 * 100)
             else 0 } : ReportRow)))).map (fun row => row.category)
    rw [(hperm.nodup_iff)]
    have hkeys : ((rs.foldl
          (fun acc r => addToTotals acc (categoryOrOtros r.category) r.amount)
          []).map (fun p =>
        ({ category := p.1, amount := p.2,
           percentage :=
             if rs.foldl (fun sum r => sum + r.amount) 0 > 0 then
               jsRound (p.2 / rs.foldl (fun sum r => sum + r.amount) 0 * 100)
             else 0 } : ReportRow))).map (fun row => row.category) =
        (rs.foldl (fun acc r => addToTotals acc (categoryOrOtros r.category) r.amount)
          []).map Prod.fst := by
      simp [List.map_map, Function.comp]
    rw [hkeys]
    exact nodup_keys_foldl _ rs [] (by simp)

/-- Witness for C6 at the two-receipt sample collection. -/
theorem report_expensesByCategory_sorted_complete_witness :
    (∀ r ∈ [sampleMarket, sampleTaxi], r.category ≠ "")
    ∧ ((calculateReportData [sampleMarket, sampleTaxi]).expensesByCategory.Pairwise
          (fun a b => b.amount ≤ a.amount)
      ∧ (∀ c : String,
          (∃ row ∈ (calculateReportData [sampleMarket, sampleTaxi]).expensesByCategory,
              row.category = c) ↔
            ∃ r ∈ [sampleMarket, sampleTaxi], r.category = c)
      ∧ ((calculateReportData [sampleMarket, sampleTaxi]).expensesByCategory.map
            (fun row => row.category)).Nodup) :=
  ⟨by decide, report_expensesByCategory_sorted_complete [sampleMarket, sampleTaxi] (by decide)⟩

/-- **C1** counterexample: updating an id absent from the collection leaves
the receipts unchanged element for element, but a Record Store save call IS
made (`updateReceipt` calls `saveReceipts` unconditionally), so the claim
that no persistence call happens is false at this input. -/
theorem updateReceipt_missing_id_counterexample :
    (updateReceipt true sampleLedger 999 { amount := some 200 }).state.receipts =
        sampleLedger.receipts
    ∧ ¬ (updateReceipt true sampleLedger 999 { amount := some 200 }).state.saveCalls =
        sampleLedger.saveCalls := by
  constructor
  · simp [updateReceipt, saveReceipts, sampleLedger, sampleMarket, sampleTaxi]
  · simp [updateReceipt, saveReceipts, sampleLedger]

/-- **C1** (amended): `update(X, patch)` on an id not present in the
collection leaves the collection unchanged element for element, but a
persistence (save) call is still made unconditionally and the operation
reports success. -/
theorem updateReceipt_missing_id_noop_but_saves (st : LedgerState) (id : Nat)
    (patch : ReceiptPatch) (h : ∀ r ∈ st.receipts, r.id ≠ id) :
    (updateReceipt true st id patch).state.receipts = st.receipts
    ∧ (updateReceipt true st id patch).state.saveCalls = st.saveCalls + 1
    ∧ (updateReceipt true st id patch).ok = true := by
  have hpt : ∀ r ∈ st.receipts,
      (if r.id == id then applyPatch r patch else r) = r := by
    intro r hr
    simp [h r hr]
  have hmap : st.receipts.map (fun r => if r.id == id then applyPatch r patch else r) =
      st.receipts := by
    rw [List.map_congr_left hpt]
    simp
  simp only [updateReceipt]
  rw [hmap]
  simp [saveReceipts]

/-- Witness for the amended C1 at a concrete ledger and absent id. -/
theorem updateReceipt_missing_id_noop_but_saves_witness :
    (∀ r ∈ sampleLedger.receipts, r.id ≠ 999)
    ∧ ((updateReceipt true sampleLedger 999 { amount := some 200 }).state.receipts =
          sampleLedger.receipts
      ∧ (updateReceipt true sampleLedger 999
            { amount := some 200 }).state.saveCalls = sampleLedger.saveCalls + 1
      ∧ (updateReceipt true sampleLedger 999 { amount := some 200 }).ok = true) :=
  ⟨by decide,
    updateReceipt_missing_id_noop_but_saves sampleLedger 999 { amount := some 200 }
      (by decide)⟩

/-- A create input whose caller-supplied amount (999) disagrees with the
computed product total (25). -/
def overriddenInput : Receipt :=
  { id := 0, name := "Market", amount := 999, category := "Alimentos",
    date := "2023-12-31T00:00:00.000Z", status := "", paymentMethod := none,
    products := [ { name := "a", price := 10, quantity := 2 },
                  { name := "b", price := 5, quantity := 1 } ],
    type := some "Manual" }

/-- **C2** counterexample: the Ledger Service create path does NOT ignore a
caller-supplied amount: `addReceipt` stores amount 999 even though the
computed total over the products `[{price:10, quantity:2},
{price:5, quantity:1}]` is 25. -/
theorem addReceipt_keeps_supplied_amount_counterexample :
    ((addReceipt true 7 "2024-01-01T00:00:00.000Z" emptyLedger
        overriddenInput).state.receipts.map (fun r => r.amount)) = [999]
    ∧ calculateTotal overriddenInput.products = 25
    ∧ (999 : ℚ) ≠ 25 := by
  refine ⟨?_, ?_, by norm_num⟩
  · simp [addReceipt, saveReceipts, mkNewReceipt, emptyLedger, overriddenInput]
  · norm_num [calculateTotal, overriddenInput, priceVal, quantityVal]

/-- **C2** (amended): the amount invariant is enforced by the manual-entry
screen, not by the Ledger Service: `handleSave` sets the receipt's amount
to `calculateTotal()` over the products (25 for
`[{price:10, quantity:2}, {price:5, quantity:1}]`), while the create path
(`addReceipt`) stores whatever amount the input carries, without
recomputing it from the products. -/
theorem manual_entry_computes_amount_create_trusts_it (merchant isoDate : String)
    (selectedCategory paymentMethod : String) (products : List Product)
    (now : Nat) (iso : String) (input : Receipt) :
    (buildManualReceiptData merchant isoDate selectedCategory paymentMethod
        products).amount = calculateTotal products
    ∧ calculateTotal
        [ { name := "a", price := 10, quantity := 2 },
          { name := "b", price := 5, quantity := 1 } ] = 25
    ∧ (mkNewReceipt now iso input).amount = input.amount := by
  refine ⟨rfl, ?_, rfl⟩
  norm_num [calculateTotal, priceVal, quantityVal]

/-- **C4**: for every mutation (create, update, delete, clearAll), if the
Record Store save fails the in-memory receipt collection is unchanged and
the failure is surfaced to the caller as an error. -/
theorem mutation_save_failure_not_applied (st : LedgerState) (now : Nat)
    (iso : String) (input : Receipt) (id : Nat) (patch : ReceiptPatch) :
    ((addReceipt false now iso st input).ok = false
      ∧ (addReceipt false now iso st input).state.receipts = st.receipts)
    ∧ ((updateReceipt false st id patch).ok = false
      ∧ (updateReceipt false st id patch).state.receipts = st.receipts)
    ∧ ((deleteReceipt false st id).ok = false
      ∧ (deleteReceipt false st id).state.receipts = st.receipts)
    ∧ ((clearAllReceipts false st).ok = false
      ∧ (clearAllReceipts false st).state.receipts = st.receipts) := by
  simp [addReceipt, updateReceipt, deleteReceipt, clearAllReceipts, saveReceipts]

/-- **C5**: create assigns `id = Date.now()`, overwrites any caller-supplied
date with the current ISO time, sets status `"Procesado"`, places the new
receipt at the head and keeps all prior receipts unchanged in their prior
order. -/
theorem addReceipt_prepends_assigned_receipt (now : Nat) (iso : String)
    (st : LedgerState) (input : Receipt) :
    (addReceipt true now iso st input).state.receipts =
        { input with id := now, date := iso, status := "Procesado" } :: st.receipts
    ∧ (mkNewReceipt now iso input).id = now
    ∧ (mkNewReceipt now iso input).date = iso
    ∧ (mkNewReceipt now iso input).status = "Procesado"
    ∧ (addReceipt true now iso st input).ok = true := by
  refine ⟨?_, rfl, rfl, rfl, ?_⟩ <;> simp [addReceipt, saveReceipts, mkNewReceipt]

/-- **C7**: on a receipt set whose receipts are all tagged `"Manual"` or
carry no type at all (as the application's create paths produce), the
report's `deposits` field is 0. -/
theorem report_deposits_always_zero (rs : List Receipt)
    (h : ∀ r ∈ rs, r.type = some "Manual" ∨ r.type = none) :
    (calculateReportData rs).deposits = 0 := by
  have hfil : rs.filter
      (fun r => decide (r.amount > 0) && (r.type == some "Deposit" || false)) = [] := by
    rw [List.filter_eq_nil_iff]
    intro r hr
    rcases h r hr with ht | ht <;> simp [ht]
  simp only [calculateReportData]
  rw [hfil]
  rfl

/-- Witness for C7 at the two-receipt sample collection. -/
theorem report_deposits_always_zero_witness :
    (∀ r ∈ [sampleMarket, sampleTaxi],
        r.type = some "Manual" ∨ r.type = none)
    ∧ (calculateReportData [sampleMarket, sampleTaxi]).deposits = 0 :=
  ⟨by decide, report_deposits_always_zero [sampleMarket, sampleTaxi] (by decide)⟩

/-- **C8**: `getAveragePerReceipt` returns 0 on the empty collection
(the divide-by-zero guard) and `getTotalExpenses / count` on any non-empty
collection. -/
theorem averagePerReceipt_guarded :
    getAveragePerReceipt [] = 0
    ∧ ∀ rs : List Receipt, rs ≠ [] →
        getAveragePerReceipt rs = getTotalExpenses rs / (rs.length : ℚ) := by
  constructor
  · rfl
  · intro rs h
    have hlen : rs.length > 0 := List.length_pos.mpr h
    simp [getAveragePerReceipt, hlen]

/-- Witness for C8: the nonempty branch at a one-receipt collection,
together with the empty-collection value. -/
theorem averagePerReceipt_guarded_witness :
    getAveragePerReceipt [] = 0
    ∧ ([sampleMarket] ≠ ([] : List Receipt)
      ∧ getAveragePerReceipt [sampleMarket] =
          getTotalExpenses [sampleMarket] / (([sampleMarket] : List Receipt).length : ℚ)) :=
  ⟨averagePerReceipt_guarded.1,
    by simp, averagePerReceipt_guarded.2 [sampleMarket] (by simp)⟩

/-- **C10**: `delete(id)` removes every receipt whose id equals the
argument and the remaining receipts keep their original relative order
(they form the order-preserving filter of the original collection). -/
theorem deleteReceipt_removes_all_matching (st : LedgerState) (id : Nat) :
    (deleteReceipt true st id).state.receipts =
        st.receipts.filter (fun r => r.id != id)
    ∧ (∀ r ∈ (deleteReceipt true st id).state.receipts, r.id ≠ id)
    ∧ List.Sublist (deleteReceipt true st id).state.receipts st.receipts := by
  have h1 : (deleteReceipt true st id).state.receipts =
      st.receipts.filter (fun r => r.id != id) := by
    simp [deleteReceipt, saveReceipts]
  refine ⟨h1, ?_, ?_⟩
  · intro r hr
    rw [h1] at hr
    have := (List.mem_filter.mp hr).2
    simpa using this
  · rw [h1]
    exact List.filter_sublist _

lemma filter_and_comm {α : Type} (p q : α → Bool) (l : List α) :
    l.filter (fun a => p a && q a) = (l.filter q).filter p := by
  induction l with
  | nil => rfl
  | cons x xs ih =>
    rw [List.filter_cons, List.filter_cons]
    by_cases hq : q x = true
    · rw [if_pos hq, List.filter_cons]
      by_cases hp : p x = true
      · rw [if_pos hp, if_pos (by simp [hp, hq]), ih]
      · rw [if_neg hp, if_neg (by simp [hp]), ih]
    · rw [if_neg hq, if_neg (by simp [hq]), ih]

/-- The criteria record of the listing screen's initial state: every
filter at its sentinel / absent value (`searchQuery = ''`,
`selectedCategory = selectedType = 'Todas'`, empty dates, empty amount
bounds). -/
def defaultCriteria : FilterCriteria := {}

/-- The search check of `receiptPasses` as a standalone predicate (the
negation of its early `return false` condition). -/
def passesSearch (c : FilterCriteria) (r : Receipt) : Bool :=
  !(c.searchQuery ≠ "" && !jsIncludes r.name.toLower c.searchQuery.toLower)

/-- The category check of `receiptPasses`. -/
def passesCategory (c : FilterCriteria) (r : Receipt) : Bool :=
  !(c.selectedCategory ≠ "Todas" && r.category ≠ c.selectedCategory)

/-- The type check of `receiptPasses`. -/
def passesType (c : FilterCriteria) (r : Receipt) : Bool :=
  !(c.selectedType ≠ "Todas" && typeOrManual r.type ≠ c.selectedType)

/-- The start-date check of `receiptPasses`. -/
def passesDateStart (dateVal : String → ℚ) (c : FilterCriteria) (r : Receipt) : Bool :=
  !(c.startDate ≠ "" && decide (dateVal r.date < dateVal c.startDate))

/-- The end-date check of `receiptPasses`. -/
def passesDateEnd (dateVal : String → ℚ) (endOfDay : ℚ → ℚ)
    (c : FilterCriteria) (r : Receipt) : Bool :=
  !(c.endDate ≠ "" && decide (dateVal r.date > endOfDay (dateVal c.endDate)))

/-- The minimum-amount check of `receiptPasses`. -/
def passesAmountMin (c : FilterCriteria) (r : Receipt) : Bool :=
  !(match c.minAmount with
    | some m => decide (r.amount < m)
    | none => false)

/-- The maximum-amount check of `receiptPasses`. -/
def passesAmountMax (c : FilterCriteria) (r : Receipt) : Bool :=
  !(match c.maxAmount with
    | some m => decide (r.amount > m)
    | none => false)

lemma ite_false_else (b x : Bool) : (if b then false else x) = (!b && x) := by
  cases b <;> simp

/-- `receiptPasses` is the conjunction of its seven independent
per-criterion checks, each of which reads exactly one criteria field. -/
lemma receiptPasses_decomp (dateVal : String → ℚ) (endOfDay : ℚ → ℚ)
    (c : FilterCriteria) (r : Receipt) :
    receiptPasses dateVal endOfDay c r =
      (passesSearch c r && (passesCategory c r && (passesType c r &&
        (passesDateStart dateVal c r && (passesDateEnd dateVal endOfDay c r &&
          (passesAmountMin c r && passesAmountMax c r)))))) := by
  simp only [receiptPasses, ite_false_else, Bool.and_true, passesSearch,
    passesCategory, passesType, passesDateStart, passesDateEnd,
    passesAmountMin, passesAmountMax]

/-- One filter criterion of the listing screen together with its value:
the conceptual unit the claim's "pair of filter criteria" quantifies
over. -/
inductive FilterCriterion where
  | search (q : String)
  | category (c : String)
  | receiptType (t : String)
  | dateStart (s : String)
  | dateEnd (e : String)
  | amountMin (m : Option ℚ)
  | amountMax (m : Option ℚ)
  deriving Repr, DecidableEq

/-- Supplying one criterion on top of a criteria record: sets the one
field the criterion owns. -/
def FilterCriterion.applyTo : FilterCriterion → FilterCriteria → FilterCriteria
  | .search q, c => { c with searchQuery := q }
  | .category x, c => { c with selectedCategory := x }
  | .receiptType t, c => { c with selectedType := t }
  | .dateStart s, c => { c with startDate := s }
  | .dateEnd e, c => { c with endDate := e }
  | .amountMin m, c => { c with minAmount := m }
  | .amountMax m, c => { c with maxAmount := m }

/-- Which of the seven filter fields a criterion occupies. -/
def FilterCriterion.kind : FilterCriterion → Nat
  | .search _ => 0
  | .category _ => 1
  | .receiptType _ => 2
  | .dateStart _ => 3
  | .dateEnd _ => 4
  | .amountMin _ => 5
  | .amountMax _ => 6

lemma receiptPasses_pair (dateVal : String → ℚ) (endOfDay : ℚ → ℚ)
    (k₁ k₂ : FilterCriterion) (hk : k₁.kind ≠ k₂.kind) (r : Receipt) :
    receiptPasses dateVal endOfDay (k₁.applyTo (k₂.applyTo defaultCriteria)) r =
      (receiptPasses dateVal endOfDay (k₁.applyTo defaultCriteria) r
        && receiptPasses dateVal endOfDay (k₂.applyTo defaultCriteria) r) := by
  rcases k₁ with q₁ | c₁ | t₁ | s₁ | e₁ | m₁ | x₁ <;>
    rcases k₂ with q₂ | c₂ | t₂ | s₂ | e₂ | m₂ | x₂ <;>
      simp_all [FilterCriterion.kind, FilterCriterion.applyTo, defaultCriteria,
        receiptPasses_decomp, passesSearch, passesCategory, passesType,
        passesDateStart, passesDateEnd, passesAmountMin, passesAmountMax,
        Bool.and_comm, Bool.and_assoc, Bool.and_left_comm]

/-- **C9**: the listing filter is order-independent: for every pair of
filter criteria occupying distinct filter fields (category and a
minimum amount, search text and a date bound, ...), filtering by the
combined criteria record equals filtering by either criterion first and
the other second, on every collection. -/
theorem filteredReceipts_order_independent (dateVal : String → ℚ)
    (endOfDay : ℚ → ℚ) (k₁ k₂ : FilterCriterion) (hk : k₁.kind ≠ k₂.kind)
    (rs : List Receipt) :
    filteredReceipts dateVal endOfDay (k₁.applyTo (k₂.applyTo defaultCriteria)) rs =
        filteredReceipts dateVal endOfDay (k₁.applyTo defaultCriteria)
          (filteredReceipts dateVal endOfDay (k₂.applyTo defaultCriteria) rs)
    ∧ filteredReceipts dateVal endOfDay (k₁.applyTo (k₂.applyTo defaultCriteria)) rs =
        filteredReceipts dateVal endOfDay (k₂.applyTo defaultCriteria)
          (filteredReceipts dateVal endOfDay (k₁.applyTo defaultCriteria) rs) := by
  have hcombined :
      filteredReceipts dateVal endOfDay (k₁.applyTo (k₂.applyTo defaultCriteria)) rs =
        rs.filter (fun r =>
          receiptPasses dateVal endOfDay (k₁.applyTo defaultCriteria) r
            && receiptPasses dateVal endOfDay (k₂.applyTo defaultCriteria) r) := by
    simp only [filteredReceipts]
    exact List.filter_congr
      (fun r _ => receiptPasses_pair dateVal endOfDay k₁ k₂ hk r)
  constructor
  · rw [hcombined, filter_and_comm]
    rfl
  · rw [hcombined]
    have hsw : ∀ r ∈ rs,
        (receiptPasses dateVal endOfDay (k₁.applyTo defaultCriteria) r
          && receiptPasses dateVal endOfDay (k₂.applyTo defaultCriteria) r) =
        (receiptPasses dateVal endOfDay (k₂.applyTo defaultCriteria) r
          && receiptPasses dateVal endOfDay (k₁.applyTo defaultCriteria) r) := by
      intro r _
      exact Bool.and_comm _ _
    rw [List.filter_congr hsw, filter_and_comm]
    rfl

/-- Witness for C9 at the claim's example pair (category `"Alimentos"`
and minimum amount 10) on the two-receipt sample collection. -/
theorem filteredReceipts_order_independent_witness :
    ((FilterCriterion.category "Alimentos").kind ≠
        (FilterCriterion.amountMin (some 10)).kind)
    ∧ (filteredReceipts (fun _ => 0) (fun q => q)
          ((FilterCriterion.category "Alimentos").applyTo
            ((FilterCriterion.amountMin (some 10)).applyTo defaultCriteria))
          [sampleMarket, sampleTaxi] =
        filteredReceipts (fun _ => 0) (fun q => q)
          ((FilterCriterion.category "Alimentos").applyTo defaultCriteria)
          (filteredReceipts (fun _ => 0) (fun q => q)
            ((FilterCriterion.amountMin (some 10)).applyTo defaultCriteria)
            [sampleMarket, sampleTaxi])
      ∧ filteredReceipts (fun _ => 0) (fun q => q)
          ((FilterCriterion.category "Alimentos").applyTo
            ((FilterCriterion.amountMin (some 10)).applyTo defaultCriteria))
          [sampleMarket, sampleTaxi] =
        filteredReceipts (fun _ => 0) (fun q => q)
          ((FilterCriterion.amountMin (some 10)).applyTo defaultCriteria)
          (filteredReceipts (fun _ => 0) (fun q => q)
            ((FilterCriterion.category "Alimentos").applyTo defaultCriteria)
            [sampleMarket, sampleTaxi])) :=
  ⟨by decide,
    filteredReceipts_order_independent (fun _ => 0) (fun q => q)
      (FilterCriterion.category "Alimentos") (FilterCriterion.amountMin (some 10))
      (by decide) [sampleMarket, sampleTaxi]⟩
